import Mathlib

/-!
Shallow embedding of the generic Sequelize repository
(`src/index.ts` / `src/abstract.repository.ts` of nest-sequelize-repository)
and proofs about the claims of its natural-language specification.

Attribute bags are modelled as JavaScript objects (unique keys, later spread
wins), entities as row records, and the external entity store (the ORM /
database boundary described in spec section 6) as a list of committed rows
plus uncommitted per-transaction rows.
-/

deriving instance DecidableEq for Except

namespace NSRepo

/-- Attribute values of an entity: strings, numbers or SQL null. -/
inductive Value where
  | str : String → Value
  | num : Nat → Value
  | vnull : Value
deriving DecidableEq, Repr

/-- An attribute bag, modelling a JavaScript object: a list of key-value
pairs with unique keys (maintained by setAttr). -/
abbrev Attrs : Type := List (String × Value)

/-- Lookup of a key in an attribute bag (first occurrence). -/
def getAttr : Attrs → String → Option Value
  | [], _ => none
  | (k0, v0) :: rest, k => if k0 == k then some v0 else getAttr rest k

/-- Setting a key in an attribute bag: replaces an existing binding in place,
or appends a new one, as JavaScript property assignment does. -/
def setAttr : Attrs → String → Value → Attrs
  | [], k, v => [(k, v)]
  | (k0, v0) :: rest, k, v =>
      if k0 == k then (k, v) :: rest else (k0, v0) :: setAttr rest k v

/-- Spread merge of two JavaScript objects: every binding of the override
object is assigned over the base object, so later spreads win. Models
expressions such as the source's spread of dto then id in create. -/
def mergeAttrs (base override : Attrs) : Attrs :=
  override.foldl (fun acc kv => setAttr acc kv.1 kv.2) base

/-- The shape of the bound model (table): name of the primary-key column,
whether the model is paranoid (declares a deletedAt timestamp attribute),
and an optional uniquely-constrained column. -/
structure DataModel where
  pkField : String
  hasDeletedAt : Bool
  uniqueField : Option String
deriving DecidableEq, Repr

/-- One persisted row / loaded instance: its attribute bag and its
soft-delete timestamp (none means null, i.e. live; only meaningful when the
model is paranoid). -/
structure Entity where
  attrs : Attrs
  deletedAt : Option Nat
deriving DecidableEq, Repr

/-- The external entity store (the ORM plus database, the boundary
collaborator of spec section 6): committed rows, and uncommitted rows
written under an open transaction handle. -/
structure Store where
  model : DataModel
  rows : List Entity
  txRows : List (Nat × Entity)
deriving DecidableEq, Repr

/-- Find options threaded to store reads: the paranoid flag (true, the
default, excludes soft-deleted rows) and an optional transaction handle. -/
structure FindOpts where
  paranoid : Bool := true
  transaction : Option Nat := none
deriving DecidableEq, Repr

/-- Save options (Sequelize SaveOptions): the part relevant here is the
optional transaction handle. -/
structure SaveOpts where
  transaction : Option Nat := none
deriving DecidableEq, Repr

/-- Row visibility under a paranoid flag: with paranoid true only live rows
(null deletedAt) are visible; with paranoid false every row is visible. -/
def visible (paranoidFlag : Bool) (e : Entity) : Bool :=
  !paranoidFlag || e.deletedAt.isNone

/-- Whether a row's primary-key attribute equals the given key value. -/
def matchesPk (m : DataModel) (pk : Value) (e : Entity) : Bool :=
  getAttr e.attrs m.pkField == some pk

/-- The uncommitted rows a read sees when it carries a transaction handle:
rows pending under that same handle, none otherwise. -/
def txView (s : Store) (t : Option Nat) : List Entity :=
  match t with
  | none => []
  | some h => (s.txRows.filter (fun p => p.1 == h)).map (fun p => p.2)

/-- Store point lookup by primary key (Sequelize Model.findByPk): searches
committed rows plus the rows pending under the options' transaction handle,
honouring the paranoid flag. -/
def storeFindByPk (s : Store) (pk : Value) (opts : FindOpts) : Option Entity :=
  (s.rows ++ txView s opts.transaction).find?
    (fun e => matchesPk s.model pk e && visible opts.paranoid e)

/-- An equality query: a conjunction of field equals value constraints. -/
abbrev Query : Type := List (String × Value)

/-- Whether a row satisfies every constraint of an equality query. -/
def matchesQuery (q : Query) (e : Entity) : Bool :=
  q.all (fun kv => getAttr e.attrs kv.1 == some kv.2)

/-- Store multi-row read (Sequelize Model.findAll). -/
def storeFindAll (s : Store) (q : Query) (opts : FindOpts) : List Entity :=
  (s.rows ++ txView s opts.transaction).filter
    (fun e => matchesQuery q e && visible opts.paranoid e)

/-- The committed rows matching a query under the default paranoid filter:
the population findAndCountAll counts. -/
def matchingRows (s : Store) (q : Query) : List Entity :=
  s.rows.filter (fun e => visible true e && matchesQuery q e)

/-- Store combined count-and-fetch (Sequelize Model.findAndCountAll): the
rows are the requested window of the matching rows, the count is the full
number of matching rows independent of limit and offset. -/
def storeFindAndCountAll (s : Store) (q : Query) (limit offset : Nat) :
    List Entity × Nat :=
  ((matchingRows s q).drop offset |>.take limit, (matchingRows s q).length)

/-- Errors the entity store can signal (spec section 6: a distinguishable
uniqueness-violation condition, and any other failure). -/
inductive StoreError where
  | uniqueViolation
  | otherFailure
deriving DecidableEq, Repr

/-- Building a row instance from an attribute bag: on a paranoid model a
numeric deletedAt attribute seeds the soft-delete timestamp, otherwise the
row starts live. -/
def entityOfAttrs (m : DataModel) (a : Attrs) : Entity :=
  { attrs := a,
    deletedAt :=
      if m.hasDeletedAt then
        match getAttr a "deletedAt" with
        | some (Value.num t) => some t
        | _ => none
      else none }

/-- Whether inserting the attribute bag would violate the primary-key or the
declared unique constraint against the committed rows. Null or absent values
in the unique column do not conflict, following SQL unique semantics. -/
def uniqueConflict (s : Store) (a : Attrs) : Bool :=
  (match getAttr a s.model.pkField with
    | none => false
    | some Value.vnull => false
    | some v => s.rows.any (fun r => getAttr r.attrs s.model.pkField == some v)) ||
  (match s.model.uniqueField with
    | none => false
    | some f =>
      match getAttr a f with
      | none => false
      | some Value.vnull => false
      | some v => s.rows.any (fun r => getAttr r.attrs f == some v))

/-- Store single insert (Sequelize Model.create): fails with a uniqueness
violation on a constraint conflict, otherwise appends the new row. -/
def storeCreate (s : Store) (a : Attrs) : Except StoreError (Entity × Store) :=
  if uniqueConflict s a then Except.error StoreError.uniqueViolation
  else
    Except.ok (entityOfAttrs s.model a,
      { s with rows := s.rows ++ [entityOfAttrs s.model a] })

/-- Store bulk insert (Sequelize Model.bulkCreate): inserts the attribute
bags in order, failing whole on the first constraint conflict. -/
def storeBulkCreate (s : Store) : List Attrs → Except StoreError (List Entity × Store)
  | [] => Except.ok ([], s)
  | a :: rest =>
    match storeCreate s a with
    | Except.error e => Except.error e
    | Except.ok (ent, s1) =>
      match storeBulkCreate s1 rest with
      | Except.error e => Except.error e
      | Except.ok (ents, s2) => Except.ok (ent :: ents, s2)

/-- Replace every committed row carrying the given primary key with the
updated instance (persisting a mutated loaded instance). -/
def updateRowByPk (s : Store) (pk : Value) (e : Entity) : Store :=
  { s with rows := s.rows.map (fun r => if matchesPk s.model pk r then e else r) }

/-- Physically remove every committed row carrying the given primary key. -/
def removeRowByPk (s : Store) (pk : Value) : Store :=
  { s with rows := s.rows.filter (fun r => !matchesPk s.model pk r) }

/-- Instance destroy (Sequelize entity.destroy): on a paranoid model without
force it stamps the soft-delete timestamp on the instance and its row;
with force, or on a non-paranoid model, it physically removes the row. -/
def instanceDestroy (s : Store) (pk : Value) (e : Entity) (force : Bool)
    (now : Nat) : Entity × Store :=
  if s.model.hasDeletedAt && !force then
    ({ e with deletedAt := some now },
      updateRowByPk s pk { e with deletedAt := some now })
  else
    (e, removeRowByPk s pk)

/-- Instance save (Sequelize entity.save): persists the instance to its row;
under a transaction handle the write stays pending for that handle. -/
def entitySave (s : Store) (pk : Value) (e : Entity) (opts : SaveOpts) : Store :=
  match opts.transaction with
  | none => updateRowByPk s pk e
  | some h =>
    { s with txRows :=
        (s.txRows.filter (fun p => !(p.1 == h && matchesPk s.model pk p.2)))
          ++ [(h, e)] }

/-- Errors surfaced by the repository layer. internalServerError is the
generic operation-failed error the source throws from every catch block;
entityAlreadyExists is the distinguished conflict error of the spec's
taxonomy; custom stands for an arbitrary caller-raised error reaching the
transaction wrapper. -/
inductive RepoError where
  | internalServerError
  | entityAlreadyExists
  | custom : Nat → RepoError
deriving DecidableEq, Repr

/-- Repository configuration resolved at construction (abstract.repository.ts
lines 27-46): auto-generation flag, primary-key field name, and the ID
generator modelled as a function of its call index. -/
structure RepoConfig where
  autoGenerateId : Bool
  idField : String
  idGenerator : Nat → Value

/-- Repository create (abstract.repository.ts lines 48-68): when configured
for auto-generation, a freshly generated ID is spread over the caller's dto,
so it overrides any caller-supplied value of the id field; the merged bag is
inserted; any store failure is logged and re-signaled as the generic
internalServerError. Returns the result together with the store and the
generator call counter. -/
def create (cfg : RepoConfig) (dto : Attrs) (s : Store) (ctr : Nat) :
    Except RepoError Entity × Store × Nat :=
  let idBag : Attrs :=
    if cfg.autoGenerateId then [(cfg.idField, cfg.idGenerator ctr)] else []
  let ctr1 := if cfg.autoGenerateId then ctr + 1 else ctr
  match storeCreate s (mergeAttrs dto idBag) with
  | Except.ok (e, s1) => (Except.ok e, s1, ctr1)
  | Except.error _ => (Except.error RepoError.internalServerError, s, ctr1)

/-- The per-item ID assignment of insertMany (abstract.repository.ts lines
84-89): each dto in order receives its own generator call, spread over the
dto so it overrides any caller-supplied id value. -/
def assignIds (cfg : RepoConfig) (ctr : Nat) : List Attrs → List Attrs
  | [] => []
  | d :: rest =>
      mergeAttrs d [(cfg.idField, cfg.idGenerator ctr)] :: assignIds cfg (ctr + 1) rest

/-- Repository insertMany (abstract.repository.ts lines 77-96): when
configured for auto-generation each dto receives a fresh generated ID, then
the list is bulk-inserted; any store failure is re-signaled as the generic
internalServerError. -/
def insertMany (cfg : RepoConfig) (dtos : List Attrs) (s : Store) (ctr : Nat) :
    Except RepoError (List Entity) × Store × Nat :=
  let identified := if cfg.autoGenerateId then assignIds cfg ctr dtos else dtos
  let ctr1 := if cfg.autoGenerateId then ctr + dtos.length else ctr
  match storeBulkCreate s identified with
  | Except.ok (es, s1) => (Except.ok es, s1, ctr1)
  | Except.error _ => (Except.error RepoError.internalServerError, s, ctr1)

/-- Repository findByPk (index.ts lines 127-137): a direct pass-through of
the primary-key point lookup with the caller's find options. -/
def findByPk (s : Store) (pk : Value) (opts : FindOpts) : Option Entity :=
  storeFindByPk s pk opts

/-- Repository findAll (index.ts lines 154-167): a pass-through of the
predicate read with the caller's find options. -/
def findAll (s : Store) (q : Query) (opts : FindOpts) : List Entity :=
  storeFindAll s q opts

/-- Pagination options of findAllPaginated (index.ts lines 17-25): an
optional limit, an optional offset and a predicate. There is no page-number
field. The extra findOptions pass-through is not needed by any claim and is
omitted. -/
structure PaginationOptions where
  limit : Option Nat := none
  offset : Option Nat := none
  query : Query := []
deriving DecidableEq, Repr

/-- The limit and offset findAllPaginated actually uses (index.ts line 173):
the given limit defaulting to 10 and the given offset defaulting to 0. -/
def paginationParams (options : PaginationOptions) : Nat × Nat :=
  (options.limit.getD 10, options.offset.getD 0)

/-- Repository findAllPaginated (index.ts lines 169-185): destructures limit
(default 10) and offset (default 0) and passes them with the predicate to the
store's combined count-and-fetch. -/
def findAllPaginated (s : Store) (options : PaginationOptions) :
    List Entity × Nat :=
  storeFindAndCountAll s options.query (paginationParams options).1
    (paginationParams options).2

/-- Repository updateByPk (index.ts lines 187-205): performs the preliminary
point lookup with this.findByPk(primaryKey), i.e. with default find options
(paranoid true, no transaction handle), regardless of the caller's save
options; on absence returns null leaving the store untouched; otherwise sets
the partial attributes on the instance and saves it with the caller's
options. -/
def updateByPk (s : Store) (pk : Value) (dto : Attrs) (opts : SaveOpts) :
    Option Entity × Store :=
  match findByPk s pk {} with
  | none => (none, s)
  | some e =>
    (some { e with attrs := mergeAttrs e.attrs dto },
      entitySave s pk { e with attrs := mergeAttrs e.attrs dto } opts)

/-- Repository deleteByPk (index.ts lines 207-230): looks the entity up with
paranoid set to the negation of force; on absence returns null; when force is
requested and the model carries a deletedAt attribute, the deletion timestamp
is stamped on the in-memory instance before destroying; then the instance is
destroyed with the caller's force flag and the instance snapshot returned. -/
def deleteByPk (s : Store) (pk : Value) (force : Bool) (now : Nat) :
    Option Entity × Store :=
  match storeFindByPk s pk { paranoid := !force, transaction := none } with
  | none => (none, s)
  | some e =>
    let e1 := if force && s.model.hasDeletedAt then { e with deletedAt := some now } else e
    ((instanceDestroy s pk e1 force now).1, (instanceDestroy s pk e1 force now).2)

/-- Committing a transaction handle: its pending rows become committed rows,
in their write order, and stop being pending. -/
def commitTx (s : Store) (h : Nat) : Store :=
  { s with
    rows := s.rows ++ (s.txRows.filter (fun p => p.1 == h)).map (fun p => p.2),
    txRows := s.txRows.filter (fun p => !(p.1 == h)) }

/-- The store's open-transaction-with-callback primitive (spec section 6, the
Sequelize managed transaction the source calls at index.ts line 258): runs
the body with a fresh handle; on success the body's resulting store is
committed; on failure every effect is rolled back, the store reverts to its
pre-transaction state, and the body's error is rethrown. -/
def sequelizeTransaction {α : Type} (s : Store)
    (body : Nat → Store → Except RepoError (α × Store)) :
    Except RepoError α × Store :=
  match body 0 s with
  | Except.ok (r, s1) => (Except.ok r, commitTx s1 0)
  | Except.error e => (Except.error e, s)

/-- Repository transaction (index.ts lines 255-266): delegates to the store's
managed transaction, wrapping the callback so that any callback error is
logged and replaced by the generic internalServerError before it reaches the
store primitive (and hence the caller). -/
def repoTransaction {α : Type} (s : Store)
    (body : Nat → Store → Except RepoError (α × Store)) :
    Except RepoError α × Store :=
  sequelizeTransaction s (fun tx st =>
    match body tx st with
    | Except.ok rs => Except.ok rs
    | Except.error _ => Except.error RepoError.internalServerError)

/-- Repository calculateOffset (index.ts lines 268-270): pure arithmetic on
the numbers limit and page. -/
def calculateOffset (limit page : Int) : Int :=
  limit * (page - 1)

/-- What new.target is at construction: the abstract base class itself, or a
concrete subclass. -/
inductive CtorTarget where
  | abstractRepository
  | subclass : String → CtorTarget
deriving DecidableEq, Repr

/-- The error taxonomy of construction: the ProgrammerError of the spec,
thrown as Error(AbstractRepository cannot be instantiated directly). -/
inductive CtorError where
  | programmerError
deriving DecidableEq, Repr

/-- Construction options (IRepositoryOptions): every field optional. The
logger is not observable by any claim and is omitted. -/
structure RepositoryOptions where
  autoGenerateId : Option Bool := none
  idField : Option String := none
  idGenerator : Option (Nat → Value) := none

/-- Modelled from the spec: the default ID generator (an external uuid v7
function, a randomized 128-bit identifier per call), modelled as an injective
function of the call index. -/
def uuidv7 (n : Nat) : Value :=
  Value.str (toString n)

/-- The constructor of AbstractRepository (abstract.repository.ts lines
27-46): destructures the options with their defaults, then throws
unconditionally when new.target is the abstract class itself; a concrete
subclass construction succeeds and fixes the configuration. -/
def constructRepository (target : CtorTarget) (m : DataModel)
    (options : RepositoryOptions) : Except CtorError (DataModel × RepoConfig) :=
  let cfg : RepoConfig :=
    { autoGenerateId := options.autoGenerateId.getD false,
      idField := options.idField.getD "id",
      idGenerator := options.idGenerator.getD uuidv7 }
  if target = CtorTarget.abstractRepository then
    Except.error CtorError.programmerError
  else
    Except.ok (m, cfg)

/-- Setting a key makes it readable back: lookup after setAttr on the same
key returns the new value. -/
theorem getAttr_setAttr_self (a : Attrs) (k : String) (v : Value) :
    getAttr (setAttr a k v) k = some v := by
  induction a with
  | nil => simp [setAttr, getAttr]
  | cons hd tl ih =>
    obtain ⟨k0, v0⟩ := hd
    cases h : (k0 == k) with
    | true => simp [setAttr, h, getAttr]
    | false => simp [setAttr, h, getAttr, ih]

/-- Spreading a single binding is a single assignment. -/
theorem mergeAttrs_single (a : Attrs) (k : String) (v : Value) :
    mergeAttrs a [(k, v)] = setAttr a k v := rfl

/-- Spreading the empty object changes nothing. -/
theorem mergeAttrs_nil (a : Attrs) : mergeAttrs a [] = a := rfl

/-- A successful store insert appends exactly the row built from the
attribute bag. -/
theorem storeCreate_ok {s : Store} {a : Attrs} {e : Entity} {s1 : Store}
    (h : storeCreate s a = Except.ok (e, s1)) :
    e = entityOfAttrs s.model a ∧ s1 = { s with rows := s.rows ++ [e] } := by
  unfold storeCreate at h
  cases hc : uniqueConflict s a with
  | true => rw [hc] at h; simp at h
  | false =>
    rw [hc] at h
    simp only [Bool.false_eq_true, if_false, Except.ok.injEq, Prod.mk.injEq] at h
    obtain ⟨he, hs⟩ := h
    subst he
    exact ⟨rfl, hs.symm⟩

/-- A successful bulk insert creates exactly the rows built from the
attribute bags, in order. -/
theorem storeBulkCreate_ok {s : Store} {l : List Attrs} {es : List Entity}
    {s1 : Store} (h : storeBulkCreate s l = Except.ok (es, s1)) :
    es = l.map (entityOfAttrs s.model) := by
  induction l generalizing s es s1 with
  | nil =>
    simp only [storeBulkCreate, Except.ok.injEq, Prod.mk.injEq] at h
    simp [← h.1]
  | cons a rest ih =>
    unfold storeBulkCreate at h
    cases h1 : storeCreate s a with
    | error e0 => rw [h1] at h; simp at h
    | ok p =>
      obtain ⟨ent, sA⟩ := p
      rw [h1] at h
      replace h : (match storeBulkCreate sA rest with
          | Except.error e => (Except.error e : Except StoreError (List Entity × Store))
          | Except.ok (ents, s2) => Except.ok (ent :: ents, s2)) =
          Except.ok (es, s1) := h
      cases h2 : storeBulkCreate sA rest with
      | error e0 => rw [h2] at h; simp at h
      | ok q =>
        obtain ⟨ents, sB⟩ := q
        rw [h2] at h
        simp only [Except.ok.injEq, Prod.mk.injEq] at h
        obtain ⟨he, _⟩ := h
        obtain ⟨hent, hsA⟩ := storeCreate_ok h1
        have hm : sA.model = s.model := by rw [hsA]
        have hrest := ih h2
        rw [← he, List.map_cons, ← hent, hrest, hm]

/-- Assigning IDs preserves the number of items. -/
theorem assignIds_length (cfg : RepoConfig) (ctr : Nat) (l : List Attrs) :
    (assignIds cfg ctr l).length = l.length := by
  induction l generalizing ctr with
  | nil => rfl
  | cons d rest ih => simp [assignIds, ih]

/-- The i-th identified dto is the i-th input dto with the i-th successive
generator value spread over it. -/
theorem assignIds_get (cfg : RepoConfig) (ctr : Nat) (l : List Attrs) (i : Nat)
    (h1 : i < (assignIds cfg ctr l).length) (h2 : i < l.length) :
    (assignIds cfg ctr l).get ⟨i, h1⟩ =
      mergeAttrs (l.get ⟨i, h2⟩) [(cfg.idField, cfg.idGenerator (ctr + i))] := by
  induction l generalizing ctr i with
  | nil => exact absurd h2 (by simp)
  | cons d rest ih =>
    cases i with
    | zero => simp [assignIds]
    | succ j =>
      have hj : j < rest.length := by
        simpa using h2
      have hj1 : j < (assignIds cfg (ctr + 1) rest).length := by
        rw [assignIds_length]; exact hj
      have := ih (ctr + 1) j hj1 hj
      simp only [assignIds, List.get_cons_succ]
      rw [this]
      have harith : ctr + 1 + j = ctr + (j + 1) := by omega
      rw [harith]

/-- Every identified dto carries, as its ID attribute, the generator value
of one distinct successive call. -/
theorem assignIds_mem_id (cfg : RepoConfig) (ctr : Nat) (l : List Attrs)
    (a : Attrs) (ha : a ∈ assignIds cfg ctr l) :
    ∃ i, i < l.length ∧
      getAttr a cfg.idField = some (cfg.idGenerator (ctr + i)) := by
  induction l generalizing ctr with
  | nil => simp [assignIds] at ha
  | cons d rest ih =>
    simp only [assignIds, List.mem_cons] at ha
    cases ha with
    | inl h =>
      refine ⟨0, by simp, ?_⟩
      rw [h, mergeAttrs_single, getAttr_setAttr_self]
      simp
    | inr h =>
      obtain ⟨i, hi, hgi⟩ := ih (ctr + 1) h
      refine ⟨i + 1, by simpa using hi, ?_⟩
      rw [hgi]
      have harith : ctr + 1 + i = ctr + (i + 1) := by omega
      rw [harith]

/-- With an injective generator, the ID attributes of the identified dtos
are pairwise distinct. -/
theorem assignIds_ids_nodup (cfg : RepoConfig)
    (hinj : Function.Injective cfg.idGenerator) (ctr : Nat) (l : List Attrs) :
    ((assignIds cfg ctr l).map (fun a => getAttr a cfg.idField)).Nodup := by
  induction l generalizing ctr with
  | nil => simp [assignIds]
  | cons d rest ih =>
    simp only [assignIds, List.map_cons, List.nodup_cons]
    constructor
    · intro hmem
      obtain ⟨a, ha, hEq⟩ := List.mem_map.mp hmem
      obtain ⟨i, _, hgi⟩ := assignIds_mem_id cfg (ctr + 1) rest a ha
      rw [hgi, mergeAttrs_single, getAttr_setAttr_self] at hEq
      have : ctr + 1 + i = ctr := hinj (Option.some.inj hEq)
      omega
    · exact ih (ctr + 1)

/-- C7: calculateOffset is the pure arithmetic limit times page minus one,
and in particular calculateOffset 10 3 equals 20. -/
theorem C7_calculateOffset_arith :
    (∀ limit page : Int, calculateOffset limit page = limit * (page - 1)) ∧
      calculateOffset 10 3 = 20 :=
  ⟨fun _ _ => rfl, by decide⟩

/-- C8: for every model argument and every options argument, constructing
the abstract repository type directly fails with the ProgrammerError, while
constructing through any concrete subclass succeeds. -/
theorem C8_constructor_guard :
    (∀ (m : DataModel) (options : RepositoryOptions),
        constructRepository CtorTarget.abstractRepository m options =
          Except.error CtorError.programmerError) ∧
      ∀ (name : String) (m : DataModel) (options : RepositoryOptions),
        (constructRepository (CtorTarget.subclass name) m options).isOk = true := by
  constructor
  · intro m options
    simp [constructRepository]
  · intro name m options
    simp [constructRepository, Except.isOk, Except.toBool]

/-- C4 counterexample: findAllPaginated has no page-number input. With the
offset omitted (a caller targeting page 3 at limit 10 per the claim), the
offset actually passed to the store is 0, not calculateOffset 10 3 = 20; on
a store of three matching rows and limit 1 the returned window starts at the
first row. -/
theorem C4_pagination_counterexample :
    (paginationParams { limit := some 10, offset := none, query := [] }).2 = 0 ∧
      calculateOffset 10 3 = 20 ∧
      ((paginationParams { limit := some 10, offset := none, query := [] }).2 : Int) ≠
        calculateOffset 10 3 ∧
      findAllPaginated
        { model := { pkField := "id", hasDeletedAt := false, uniqueField := none },
          rows := [ { attrs := [("id", Value.num 1)], deletedAt := none },
                    { attrs := [("id", Value.num 2)], deletedAt := none },
                    { attrs := [("id", Value.num 3)], deletedAt := none } ],
          txRows := [] }
        { limit := some 1, offset := none, query := [] } =
        ([ { attrs := [("id", Value.num 1)], deletedAt := none } ], 3) := by
  refine ⟨rfl, by decide, by decide, by decide⟩

/-- C4 amended: findAllPaginated uses the caller's offset defaulting to 0
(it accepts no page number and never derives an offset from one) and the
caller's limit defaulting to 10, returning that window of the matching rows
together with the full match count; the count is independent of limit and
offset. -/
theorem C4_pagination_defaults_full_count (s : Store) (options : PaginationOptions) :
    findAllPaginated s options =
        (((matchingRows s options.query).drop (options.offset.getD 0)).take
          (options.limit.getD 10),
          (matchingRows s options.query).length) ∧
      ∀ limit1 offset1 limit2 offset2 : Nat,
        (storeFindAndCountAll s options.query limit1 offset1).2 =
          (storeFindAndCountAll s options.query limit2 offset2).2 :=
  ⟨rfl, fun _ _ _ _ => rfl⟩

/-- C1 counterexample: a transaction callback failing with an arbitrary
error does not propagate that original error to the caller — the repository's
catch wrapper replaces it with the generic internalServerError before the
store primitive rethrows; the rollback itself does happen. -/
theorem C1_transaction_counterexample :
    repoTransaction (α := Nat)
        { model := { pkField := "id", hasDeletedAt := true, uniqueField := none },
          rows := [], txRows := [] }
        (fun _ _ => Except.error (RepoError.custom 7)) =
      (Except.error RepoError.internalServerError,
        { model := { pkField := "id", hasDeletedAt := true, uniqueField := none },
          rows := [], txRows := [] }) ∧
      RepoError.internalServerError ≠ RepoError.custom 7 := by
  exact ⟨by decide, by decide⟩

/-- C1 amended: transaction opens a store transaction, invokes the callback
with the handle and commits on success returning the callback's result; if
the callback fails the transaction is rolled back — the store reverts to its
pre-transaction state, so no partial commit is possible — but the error
surfaced to the caller is the generic internalServerError, not the original
callback error. -/
theorem C1_transaction_commit_rollback {α : Type} (s : Store)
    (body : Nat → Store → Except RepoError (α × Store)) :
    (∀ (r : α) (s1 : Store), body 0 s = Except.ok (r, s1) →
        repoTransaction s body = (Except.ok r, commitTx s1 0)) ∧
      ∀ e : RepoError, body 0 s = Except.error e →
        repoTransaction s body = (Except.error RepoError.internalServerError, s) := by
  constructor
  · intro r s1 h
    simp [repoTransaction, sequelizeTransaction, h]
  · intro e h
    simp [repoTransaction, sequelizeTransaction, h]

/-- C1 witness: the amended transaction theorem applied to one concrete
succeeding callback and one concrete failing callback on a concrete store. -/
theorem C1_transaction_witness :
    (repoTransaction (α := Nat)
        { model := { pkField := "id", hasDeletedAt := true, uniqueField := none },
          rows := [], txRows := [] }
        (fun _ st => Except.ok (42, st)) =
      (Except.ok 42,
        commitTx
          { model := { pkField := "id", hasDeletedAt := true, uniqueField := none },
            rows := [], txRows := [] } 0)) ∧
      repoTransaction (α := Nat)
        { model := { pkField := "id", hasDeletedAt := true, uniqueField := none },
          rows := [], txRows := [] }
        (fun _ _ => Except.error (RepoError.custom 9)) =
        (Except.error RepoError.internalServerError,
          { model := { pkField := "id", hasDeletedAt := true, uniqueField := none },
            rows := [], txRows := [] }) :=
  ⟨(C1_transaction_commit_rollback _ _).1 42 _ rfl,
    (C1_transaction_commit_rollback _ _).2 (RepoError.custom 9) rfl⟩

/-- C2 counterexample: with a uniquely-constrained attribute, the second
create carrying the same unique value fails, but with the generic
internalServerError — not with the distinguished entity-already-exists
conflict error the claim requires. -/
theorem C2_create_conflict_counterexample :
    (create { autoGenerateId := false, idField := "id", idGenerator := uuidv7 }
        [("id", Value.num 1), ("unique_field", Value.str "a")]
        { model := { pkField := "id", hasDeletedAt := false,
                     uniqueField := some "unique_field" },
          rows := [], txRows := [] } 0).1 =
      Except.ok { attrs := [("id", Value.num 1), ("unique_field", Value.str "a")],
                  deletedAt := none } ∧
      (create { autoGenerateId := false, idField := "id", idGenerator := uuidv7 }
        [("id", Value.num 2), ("unique_field", Value.str "a")]
        ((create { autoGenerateId := false, idField := "id", idGenerator := uuidv7 }
          [("id", Value.num 1), ("unique_field", Value.str "a")]
          { model := { pkField := "id", hasDeletedAt := false,
                       uniqueField := some "unique_field" },
            rows := [], txRows := [] } 0).2.1) 0).1 =
        Except.error RepoError.internalServerError ∧
      RepoError.internalServerError ≠ RepoError.entityAlreadyExists := by
  exact ⟨by decide, by decide, by decide⟩

/-- C2 amended: a uniqueness violation on create is signaled exactly like
any other store failure — as the generic internalServerError — leaving the
store unchanged; the repository does not distinguish a conflict error. -/
theorem C2_unique_violation_generic_error (cfg : RepoConfig) (dto : Attrs)
    (s : Store) (ctr : Nat)
    (h : uniqueConflict s
        (mergeAttrs dto
          (if cfg.autoGenerateId then [(cfg.idField, cfg.idGenerator ctr)] else [])) =
        true) :
    (create cfg dto s ctr).1 = Except.error RepoError.internalServerError ∧
      (create cfg dto s ctr).2.1 = s := by
  simp [create, storeCreate, h]

/-- C2 witness: the amended create theorem applied to the concrete duplicate
of the counterexample scenario. -/
theorem C2_create_witness :
    uniqueConflict
        { model := { pkField := "id", hasDeletedAt := false,
                     uniqueField := some "unique_field" },
          rows := [ { attrs := [("id", Value.num 1), ("unique_field", Value.str "a")],
                      deletedAt := none } ],
          txRows := [] }
        (mergeAttrs [("id", Value.num 2), ("unique_field", Value.str "a")]
          (if ({ autoGenerateId := false, idField := "id",
                 idGenerator := uuidv7 } : RepoConfig).autoGenerateId then
            [("id", uuidv7 0)] else [])) = true ∧
      (create { autoGenerateId := false, idField := "id", idGenerator := uuidv7 }
        [("id", Value.num 2), ("unique_field", Value.str "a")]
        { model := { pkField := "id", hasDeletedAt := false,
                     uniqueField := some "unique_field" },
          rows := [ { attrs := [("id", Value.num 1), ("unique_field", Value.str "a")],
                      deletedAt := none } ],
          txRows := [] } 0).1 = Except.error RepoError.internalServerError :=
  ⟨by decide,
    (C2_unique_violation_generic_error _ _ _ _ (by decide)).1⟩

/-- C3 counterexample: with auto-generation enabled and the caller supplying
a primary-key value, the inserted entity carries the generated key, not the
caller's — the generated id is spread after the dto and overrides it. -/
theorem C3_create_caller_pk_counterexample :
    (create { autoGenerateId := true, idField := "id",
              idGenerator := fun n => Value.num (100 + n) }
        [("id", Value.str "caller")]
        { model := { pkField := "id", hasDeletedAt := false, uniqueField := none },
          rows := [], txRows := [] } 0).1 =
      Except.ok { attrs := [("id", Value.num 100)], deletedAt := none } ∧
      Value.num 100 ≠ Value.str "caller" := by
  exact ⟨by decide, by decide⟩

/-- C3 amended: create auto-generates the primary-key value whenever the
repository is configured for auto-generation, overriding any caller-supplied
value of the id field; only when auto-generation is disabled does the
inserted entity carry the caller's attribute set unchanged, including the
caller's primary key. -/
theorem C3_create_autogen_policy (cfg : RepoConfig) (dto : Attrs) (s : Store)
    (ctr : Nat) (e : Entity) (s1 : Store) (c1 : Nat)
    (h : create cfg dto s ctr = (Except.ok e, s1, c1)) :
    (cfg.autoGenerateId = true →
        getAttr e.attrs cfg.idField = some (cfg.idGenerator ctr)) ∧
      (cfg.autoGenerateId = false → e.attrs = dto) := by
  constructor
  · intro hauto
    simp only [create, hauto, if_true] at h
    cases hs : storeCreate s (mergeAttrs dto [(cfg.idField, cfg.idGenerator ctr)]) with
    | error e0 => rw [hs] at h; simp at h
    | ok p =>
      obtain ⟨e0, sA⟩ := p
      rw [hs] at h
      replace h : ((Except.ok e0 : Except RepoError Entity), sA, ctr + 1) =
        (Except.ok e, s1, c1) := h
      simp only [Prod.mk.injEq, Except.ok.injEq] at h
      obtain ⟨he, -⟩ := h
      obtain ⟨hent, -⟩ := storeCreate_ok hs
      rw [← he, hent]
      show getAttr (mergeAttrs dto [(cfg.idField, cfg.idGenerator ctr)]) cfg.idField =
        some (cfg.idGenerator ctr)
      rw [mergeAttrs_single, getAttr_setAttr_self]
  · intro hauto
    simp only [create, hauto, Bool.false_eq_true, if_false] at h
    cases hs : storeCreate s (mergeAttrs dto []) with
    | error e0 => rw [hs] at h; simp at h
    | ok p =>
      obtain ⟨e0, sA⟩ := p
      rw [hs] at h
      replace h : ((Except.ok e0 : Except RepoError Entity), sA, ctr) =
        (Except.ok e, s1, c1) := h
      simp only [Prod.mk.injEq, Except.ok.injEq] at h
      obtain ⟨he, -⟩ := h
      obtain ⟨hent, -⟩ := storeCreate_ok hs
      rw [← he, hent]
      show mergeAttrs dto [] = dto
      exact mergeAttrs_nil dto

/-- C3 witness: the amended create theorem applied to a concrete enabled
configuration with a caller-supplied key, and the generated key observed. -/
theorem C3_create_witness :
    create { autoGenerateId := true, idField := "id",
              idGenerator := fun n => Value.num (100 + n) }
        [("id", Value.str "caller")]
        { model := { pkField := "id", hasDeletedAt := false, uniqueField := none },
          rows := [], txRows := [] } 0 =
      (Except.ok { attrs := [("id", Value.num 100)], deletedAt := none },
        { model := { pkField := "id", hasDeletedAt := false, uniqueField := none },
          rows := [ { attrs := [("id", Value.num 100)], deletedAt := none } ],
          txRows := [] }, 1) ∧
      getAttr ({ attrs := [("id", Value.num 100)], deletedAt := none } : Entity).attrs
        "id" = some (Value.num 100) :=
  ⟨by decide,
    (C3_create_autogen_policy
      { autoGenerateId := true, idField := "id",
        idGenerator := fun n => Value.num (100 + n) }
      [("id", Value.str "caller")]
      { model := { pkField := "id", hasDeletedAt := false, uniqueField := none },
        rows := [], txRows := [] }
      0
      { attrs := [("id", Value.num 100)], deletedAt := none }
      { model := { pkField := "id", hasDeletedAt := false, uniqueField := none },
        rows := [ { attrs := [("id", Value.num 100)], deletedAt := none } ],
        txRows := [] }
      1
      (by decide)).1 rfl⟩

/-- Persisting an updated row changes neither the model nor the pending
transaction rows, and maps the committed rows pointwise. -/
theorem updateRowByPk_parts (s : Store) (pk : Value) (e : Entity) :
    (updateRowByPk s pk e).model = s.model ∧
      (updateRowByPk s pk e).txRows = s.txRows ∧
      (updateRowByPk s pk e).rows =
        s.rows.map (fun r => if matchesPk s.model pk r then e else r) :=
  ⟨rfl, rfl, rfl⟩

/-- Physically removing rows changes neither the model nor the pending
transaction rows, and filters the committed rows. -/
theorem removeRowByPk_parts (s : Store) (pk : Value) :
    (removeRowByPk s pk).model = s.model ∧
      (removeRowByPk s pk).txRows = s.txRows ∧
      (removeRowByPk s pk).rows = s.rows.filter (fun r => !matchesPk s.model pk r) :=
  ⟨rfl, rfl, rfl⟩

/-- C9: whenever force deletion is requested, the model carries a deletedAt
attribute, and the point lookup (which bypasses the soft-delete filter for a
force delete) finds the entity, deleteByPk returns the in-memory snapshot
stamped with the deletion timestamp while the row itself is physically
removed from the store. -/
theorem C9_force_delete_snapshot (s : Store) (pk : Value) (now : Nat)
    (e : Entity) (hpar : s.model.hasDeletedAt = true)
    (hfound : storeFindByPk s pk { paranoid := false, transaction := none } = some e) :
    deleteByPk s pk true now =
        (some { e with deletedAt := some now }, removeRowByPk s pk) ∧
      ({ e with deletedAt := some now } : Entity).deletedAt ≠ none ∧
      ∀ r ∈ (removeRowByPk s pk).rows, matchesPk s.model pk r = false := by
  refine ⟨?_, by simp, ?_⟩
  · simp [deleteByPk, instanceDestroy, hpar, hfound]
  · intro r hr
    rw [(removeRowByPk_parts s pk).2.2] at hr
    have := (List.mem_filter.mp hr).2
    simpa using this

/-- C9 witness: the force-delete theorem applied to a concrete paranoid
store holding one live entity. -/
theorem C9_force_delete_witness :
    storeFindByPk
        { model := { pkField := "id", hasDeletedAt := true, uniqueField := none },
          rows := [ { attrs := [("id", Value.num 1)], deletedAt := none } ],
          txRows := [] }
        (Value.num 1) { paranoid := false, transaction := none } =
      some { attrs := [("id", Value.num 1)], deletedAt := none } ∧
      deleteByPk
        { model := { pkField := "id", hasDeletedAt := true, uniqueField := none },
          rows := [ { attrs := [("id", Value.num 1)], deletedAt := none } ],
          txRows := [] }
        (Value.num 1) true 7 =
        (some { attrs := [("id", Value.num 1)], deletedAt := some 7 },
          removeRowByPk
            { model := { pkField := "id", hasDeletedAt := true, uniqueField := none },
              rows := [ { attrs := [("id", Value.num 1)], deletedAt := none } ],
              txRows := [] }
            (Value.num 1)) :=
  ⟨by decide,
    (C9_force_delete_snapshot
      { model := { pkField := "id", hasDeletedAt := true, uniqueField := none },
        rows := [ { attrs := [("id", Value.num 1)], deletedAt := none } ],
        txRows := [] }
      (Value.num 1) 7 { attrs := [("id", Value.num 1)], deletedAt := none }
      rfl (by decide)).1⟩

/-- C10: updateByPk performs its preliminary lookup with default find
options whatever save options the caller passes; consequently when every
row under the key is soft-deleted it returns null leaving the store exactly
unchanged, when the key exists only as an uncommitted row of an open
transaction it returns null even if the save options carry that
transaction's handle, and the looked-up result never depends on the save
options at all. -/
theorem C10_updateByPk_default_lookup (s : Store) (pk : Value) (dto : Attrs)
    (opts : SaveOpts) :
    ((updateByPk s pk dto opts).1 =
        (findByPk s pk { paranoid := true, transaction := none }).map
          (fun e => { e with attrs := mergeAttrs e.attrs dto })) ∧
      ((∀ r ∈ s.rows, matchesPk s.model pk r = true → r.deletedAt ≠ none) →
        updateByPk s pk dto opts = (none, s)) ∧
      ((∀ r ∈ s.rows, matchesPk s.model pk r = false) →
        updateByPk s pk dto opts = (none, s)) ∧
      ∀ opts2 : SaveOpts,
        (updateByPk s pk dto opts).1 = (updateByPk s pk dto opts2).1 := by
  have key : ∀ o : SaveOpts, (updateByPk s pk dto o).1 =
      (findByPk s pk { paranoid := true, transaction := none }).map
        (fun e => { e with attrs := mergeAttrs e.attrs dto }) := by
    intro o
    cases hf : findByPk s pk { paranoid := true, transaction := none } with
    | none => simp [updateByPk, hf]
    | some e => simp [updateByPk, hf]
  have lookup_none : (∀ r ∈ s.rows, matchesPk s.model pk r = true → r.deletedAt ≠ none) →
      findByPk s pk { paranoid := true, transaction := none } = none := by
    intro hyp
    unfold findByPk storeFindByPk
    apply List.find?_eq_none.mpr
    intro x hx
    simp only [txView, List.append_nil] at hx
    cases hm : matchesPk s.model pk x with
    | false => simp [hm]
    | true =>
      have hd := hyp x hx hm
      simp only [hm, visible, Bool.not_true, Bool.false_or, Bool.true_and]
      intro hcontra
      exact hd (Option.isNone_iff_eq_none.mp hcontra)
  refine ⟨key opts, ?_, ?_, fun opts2 => (key opts).trans (key opts2).symm⟩
  · intro hyp
    have h0 := lookup_none hyp
    simp [updateByPk, h0]
  · intro hyp
    have h0 : findByPk s pk { paranoid := true, transaction := none } = none := by
      apply lookup_none
      intro r hr hm
      rw [hyp r hr] at hm
      cases hm
    simp [updateByPk, h0]

/-- C10 witness: the updateByPk theorem applied to a concrete store whose
only committed row under the key is soft-deleted, with save options carrying
a transaction handle; the update returns null and the store is untouched. -/
theorem C10_updateByPk_witness :
    (∀ r ∈ ({ model := { pkField := "id", hasDeletedAt := true, uniqueField := none },
              rows := [ { attrs := [("id", Value.num 1)], deletedAt := some 3 } ],
              txRows := [(5, { attrs := [("id", Value.num 2)], deletedAt := none })] } :
                Store).rows,
        matchesPk ({ pkField := "id", hasDeletedAt := true, uniqueField := none } :
          DataModel) (Value.num 1) r = true → r.deletedAt ≠ none) ∧
      updateByPk
        { model := { pkField := "id", hasDeletedAt := true, uniqueField := none },
          rows := [ { attrs := [("id", Value.num 1)], deletedAt := some 3 } ],
          txRows := [(5, { attrs := [("id", Value.num 2)], deletedAt := none })] }
        (Value.num 1) [("name", Value.str "x")] { transaction := some 5 } =
        (none,
          { model := { pkField := "id", hasDeletedAt := true, uniqueField := none },
            rows := [ { attrs := [("id", Value.num 1)], deletedAt := some 3 } ],
            txRows := [(5, { attrs := [("id", Value.num 2)], deletedAt := none })] }) :=
  ⟨by decide,
    (C10_updateByPk_default_lookup
      { model := { pkField := "id", hasDeletedAt := true, uniqueField := none },
        rows := [ { attrs := [("id", Value.num 1)], deletedAt := some 3 } ],
        txRows := [(5, { attrs := [("id", Value.num 2)], deletedAt := none })] }
      (Value.num 1) [("name", Value.str "x")] { transaction := some 5 }).2.1
      (by decide)⟩

/-- C5: for every live entity found by a soft delete on a paranoid model,
the returned snapshot is stamped with the deletion timestamp; a subsequent
default findByPk no longer finds the key and a default findAll contains no
row under the key, while a findByPk with the soft-delete filter disabled
still finds the entity with its non-null deleted timestamp. -/
theorem C5_soft_delete_visibility (s : Store) (pk : Value) (now : Nat)
    (e : Entity) (hpar : s.model.hasDeletedAt = true)
    (hdel : (deleteByPk s pk false now).1 = some e) :
    e.deletedAt = some now ∧
      findByPk (deleteByPk s pk false now).2 pk
        { paranoid := true, transaction := none } = none ∧
      (∀ r ∈ findAll (deleteByPk s pk false now).2 []
          { paranoid := true, transaction := none },
        matchesPk s.model pk r = false) ∧
      ∃ d, findByPk (deleteByPk s pk false now).2 pk
          { paranoid := false, transaction := none } = some d ∧
        d.deletedAt = some now := by
  cases h0 : storeFindByPk s pk { paranoid := true, transaction := none } with
  | none =>
    simp [deleteByPk, h0] at hdel
  | some e0 =>
    have hred : deleteByPk s pk false now =
        (some { e0 with deletedAt := some now },
          updateRowByPk s pk { e0 with deletedAt := some now }) := by
      simp [deleteByPk, h0, instanceDestroy, hpar]
    rw [hred] at hdel
    simp only [Option.some.injEq] at hdel
    have hpred := List.find?_some h0
    have hmem := List.mem_of_find?_eq_some h0
    simp only [txView, List.append_nil] at hmem
    have hmatch : matchesPk s.model pk e0 = true := by
      rw [Bool.and_eq_true] at hpred
      exact hpred.1
    have hmatch2 : matchesPk s.model pk { e0 with deletedAt := some now } = true := hmatch
    rw [hred]
    refine ⟨by rw [← hdel], ?_, ?_, ?_⟩
    · unfold findByPk storeFindByPk
      apply List.find?_eq_none.mpr
      intro x hx
      simp only [txView, List.append_nil,
        (updateRowByPk_parts s pk { e0 with deletedAt := some now }).2.2] at hx
      obtain ⟨r, hr, hxr⟩ := List.mem_map.mp hx
      rw [(updateRowByPk_parts s pk { e0 with deletedAt := some now }).1]
      cases hm : matchesPk s.model pk r with
      | false =>
        rw [if_neg (by simp [hm])] at hxr
        rw [← hxr]
        simp [hm]
      | true =>
        rw [if_pos (by simp [hm])] at hxr
        rw [← hxr]
        simp [visible]
    · intro r hr
      unfold findAll storeFindAll at hr
      simp only [txView, List.append_nil,
        (updateRowByPk_parts s pk { e0 with deletedAt := some now }).2.2,
        List.mem_filter] at hr
      obtain ⟨hrmem, hrvis⟩ := hr
      obtain ⟨r0, hr0, hxr⟩ := List.mem_map.mp hrmem
      cases hm : matchesPk s.model pk r0 with
      | false =>
        rw [if_neg (by simp [hm])] at hxr
        rw [← hxr]
        exact hm
      | true =>
        rw [if_pos (by simp [hm])] at hxr
        rw [← hxr] at hrvis
        simp [visible] at hrvis
    · refine ⟨{ e0 with deletedAt := some now }, ?_, rfl⟩
      unfold findByPk storeFindByPk
      have hlist : ((updateRowByPk s pk { e0 with deletedAt := some now }).rows ++
          txView (updateRowByPk s pk { e0 with deletedAt := some now }) none) =
          s.rows.map (fun r =>
            if matchesPk s.model pk r then { e0 with deletedAt := some now } else r) := by
        simp [txView, (updateRowByPk_parts s pk { e0 with deletedAt := some now }).2.2]
      rw [hlist]
      have hiss : (s.rows.map (fun r =>
          if matchesPk s.model pk r then { e0 with deletedAt := some now } else r)
            |>.find? (fun x =>
              matchesPk (updateRowByPk s pk { e0 with deletedAt := some now }).model pk x &&
                visible false x)).isSome = true := by
        apply List.find?_isSome.mpr
        refine ⟨{ e0 with deletedAt := some now }, ?_, ?_⟩
        · apply List.mem_map.mpr
          exact ⟨e0, hmem, by rw [if_pos (by simp [hmatch])]⟩
        · rw [(updateRowByPk_parts s pk { e0 with deletedAt := some now }).1]
          simp [hmatch2, visible]
      obtain ⟨d, hd⟩ := Option.isSome_iff_exists.mp hiss
      have hdmem := List.mem_of_find?_eq_some hd
      have hdpred := List.find?_some hd
      rw [(updateRowByPk_parts s pk { e0 with deletedAt := some now }).1] at hdpred
      have hdm : matchesPk s.model pk d = true := by
        rw [Bool.and_eq_true] at hdpred
        exact hdpred.1
      obtain ⟨r0, hr0, hxr⟩ := List.mem_map.mp hdmem
      cases hm : matchesPk s.model pk r0 with
      | false =>
        rw [if_neg (by simp [hm])] at hxr
        rw [← hxr] at hdm
        rw [hm] at hdm
        cases hdm
      | true =>
        rw [if_pos (by simp [hm])] at hxr
        rw [hd, ← hxr]

/-- C5 witness: the soft-delete theorem applied to a concrete paranoid store
holding one live entity. -/
theorem C5_soft_delete_witness :
    (deleteByPk
        { model := { pkField := "id", hasDeletedAt := true, uniqueField := none },
          rows := [ { attrs := [("id", Value.num 1)], deletedAt := none } ],
          txRows := [] }
        (Value.num 1) false 5).1 =
      some { attrs := [("id", Value.num 1)], deletedAt := some 5 } ∧
      findByPk
        (deleteByPk
          { model := { pkField := "id", hasDeletedAt := true, uniqueField := none },
            rows := [ { attrs := [("id", Value.num 1)], deletedAt := none } ],
            txRows := [] }
          (Value.num 1) false 5).2
        (Value.num 1) { paranoid := true, transaction := none } = none :=
  ⟨by decide,
    (C5_soft_delete_visibility
      { model := { pkField := "id", hasDeletedAt := true, uniqueField := none },
        rows := [ { attrs := [("id", Value.num 1)], deletedAt := none } ],
        txRows := [] }
      (Value.num 1) 5 { attrs := [("id", Value.num 1)], deletedAt := some 5 }
      rfl (by decide)).2.1⟩

/-- C6: when auto-generation is enabled and the generator yields pairwise
distinct values across successive calls, a successful insertMany over k
attribute sets creates k entities, one per input and in input order, each
carrying its own fresh generator value in the ID attribute, and those ID
attributes are pairwise distinct — no single generated ID is reused across
the batch. -/
theorem C6_insertMany_fresh_ids (cfg : RepoConfig) (dtos : List Attrs)
    (s : Store) (ctr : Nat) (es : List Entity) (s1 : Store) (c1 : Nat)
    (hauto : cfg.autoGenerateId = true)
    (hinj : Function.Injective cfg.idGenerator)
    (h : insertMany cfg dtos s ctr = (Except.ok es, s1, c1)) :
    es.length = dtos.length ∧
      (es.map (fun e => getAttr e.attrs cfg.idField)).Nodup ∧
      ∀ (i : Nat) (h1 : i < es.length) (h2 : i < dtos.length),
        es.get ⟨i, h1⟩ =
          entityOfAttrs s.model
            (mergeAttrs (dtos.get ⟨i, h2⟩)
              [(cfg.idField, cfg.idGenerator (ctr + i))]) := by
  simp only [insertMany, hauto, if_true] at h
  cases hb : storeBulkCreate s (assignIds cfg ctr dtos) with
  | error e0 => rw [hb] at h; simp at h
  | ok p =>
    obtain ⟨es0, sA⟩ := p
    rw [hb] at h
    replace h : ((Except.ok es0 : Except RepoError (List Entity)), sA,
        ctr + dtos.length) = (Except.ok es, s1, c1) := h
    simp only [Prod.mk.injEq, Except.ok.injEq] at h
    obtain ⟨hes, -⟩ := h
    have hmap := storeBulkCreate_ok hb
    subst hes
    subst hmap
    refine ⟨?_, ?_, ?_⟩
    · simp [assignIds_length]
    · rw [List.map_map]
      have hcomp : ((fun e => getAttr e.attrs cfg.idField) ∘ entityOfAttrs s.model) =
          fun a => getAttr a cfg.idField := rfl
      rw [hcomp]
      exact assignIds_ids_nodup cfg hinj ctr dtos
    · intro i h1 h2
      have hlen : i < (assignIds cfg ctr dtos).length := by
        rw [assignIds_length]
        exact h2
      rw [List.get_eq_getElem]
      simp only [List.getElem_map]
      rw [← List.get_eq_getElem (assignIds cfg ctr dtos) ⟨i, hlen⟩,
        assignIds_get cfg ctr dtos i hlen h2]

/-- C6 witness: the insertMany theorem applied to a concrete two-element
batch with an injective concrete generator. -/
theorem C6_insertMany_witness :
    Function.Injective (fun n => Value.num (100 + n)) ∧
      insertMany
        { autoGenerateId := true, idField := "id",
          idGenerator := fun n => Value.num (100 + n) }
        [ [("n", Value.num 1)], [("n", Value.num 2)] ]
        { model := { pkField := "id", hasDeletedAt := false, uniqueField := none },
          rows := [], txRows := [] } 0 =
        (Except.ok
          [ { attrs := [("n", Value.num 1), ("id", Value.num 100)], deletedAt := none },
            { attrs := [("n", Value.num 2), ("id", Value.num 101)], deletedAt := none } ],
          { model := { pkField := "id", hasDeletedAt := false, uniqueField := none },
            rows := [ { attrs := [("n", Value.num 1), ("id", Value.num 100)],
                        deletedAt := none },
                      { attrs := [("n", Value.num 2), ("id", Value.num 101)],
                        deletedAt := none } ],
            txRows := [] }, 2) ∧
      ([ ({ attrs := [("n", Value.num 1), ("id", Value.num 100)],
            deletedAt := none } : Entity),
          { attrs := [("n", Value.num 2), ("id", Value.num 101)],
            deletedAt := none } ].map
        (fun e => getAttr e.attrs "id")).Nodup :=
  ⟨fun a b hab => by
      simp only [Value.num.injEq] at hab
      omega,
    by decide,
    (C6_insertMany_fresh_ids
      { autoGenerateId := true, idField := "id",
        idGenerator := fun n => Value.num (100 + n) }
      [ [("n", Value.num 1)], [("n", Value.num 2)] ]
      { model := { pkField := "id", hasDeletedAt := false, uniqueField := none },
        rows := [], txRows := [] } 0
      [ { attrs := [("n", Value.num 1), ("id", Value.num 100)], deletedAt := none },
        { attrs := [("n", Value.num 2), ("id", Value.num 101)], deletedAt := none } ]
      { model := { pkField := "id", hasDeletedAt := false, uniqueField := none },
        rows := [ { attrs := [("n", Value.num 1), ("id", Value.num 100)],
                    deletedAt := none },
                  { attrs := [("n", Value.num 2), ("id", Value.num 101)],
                    deletedAt := none } ],
        txRows := [] } 2
      rfl
      (fun a b hab => by
        simp only [Value.num.injEq] at hab
        omega)
      (by decide)).2.1⟩

end NSRepo
